import Mathlib

/-!
Verification of the job-search planner service (src/job-planner.py).

The program is a FastAPI application over a SQLite file database with four
tables (job_applications, tasks, contacts, documents).  Every handler opens
its own sqlite3 connection, executes a single statement, commits on the
write paths, closes the connection and returns.

Shallow embedding choices:
  - the database file is a `Store` value: one Lean list per table, rows in
    rowid (insertion) order, which is the order SELECT * returns them in;
  - timestamps (datetime values) are passed through the code opaquely, so
    they are modelled as natural numbers;
  - SQLite assigns `INTEGER PRIMARY KEY` rowids as one more than the
    largest rowid in use (no AUTOINCREMENT, and the program never deletes
    rows), and `cur.lastrowid` reports that value: `freshRowid`;
  - the program never executes `PRAGMA foreign_keys = ON`, so SQLite does
    not enforce the tasks → job_applications foreign key (its default);
  - each handler that can raise returns an `Except` value; `complete_task`
    additionally reports whether `conn.close()` was reached on its exit
    path, since the 404 branch raises before the close call.
-/

namespace JobPlanner

/-- Pydantic model JobApplication (src/job-planner.py lines 9-16).
Optional fields default to none; `id` is absent until assigned. -/
structure JobApplication where
  id : Option Nat := none
  company : String
  position : String
  status : String
  date_applied : Nat
  url : Option String := none
  notes : Option String := none
  deriving DecidableEq, Repr

/-- Pydantic model Task (src/job-planner.py lines 18-23).
`completed` defaults to false when omitted from the request body. -/
structure Task where
  id : Option Nat := none
  title : String
  due_date : Nat
  completed : Bool := false
  job_application_id : Option Nat := none
  deriving DecidableEq, Repr

/-- Pydantic model Contact (src/job-planner.py lines 25-31). -/
structure Contact where
  id : Option Nat := none
  name : String
  company : String
  email : Option String := none
  phone : Option String := none
  notes : Option String := none
  deriving DecidableEq, Repr

/-- Pydantic model Document (src/job-planner.py lines 33-39). -/
structure Document where
  id : Option Nat := none
  title : String
  type : String
  version : String
  last_updated : Nat
  file_path : String
  deriving DecidableEq, Repr

/-- The state of the job_planner.db file: the four tables created by
init_db (src/job-planner.py lines 42-87), rows kept in rowid order. -/
structure Store where
  job_applications : List JobApplication
  tasks : List Task
  contacts : List Contact
  documents : List Document
  deriving DecidableEq, Repr

/-- The database state right after init_db on a fresh file: four empty
tables. -/
def emptyStore : Store :=
  { job_applications := [], tasks := [], contacts := [], documents := [] }

/-- The rowids in use in a job_applications table. -/
def appIds (s : Store) : List Nat := s.job_applications.filterMap (fun a => a.id)

/-- The rowids in use in a tasks table. -/
def taskIds (s : Store) : List Nat := s.tasks.filterMap (fun t => t.id)

/-- The rowids in use in a contacts table. -/
def contactIds (s : Store) : List Nat := s.contacts.filterMap (fun c => c.id)

/-- The rowids in use in a documents table. -/
def documentIds (s : Store) : List Nat := s.documents.filterMap (fun d => d.id)

/-- The rowid SQLite assigns to the next inserted row of a table whose
rows carry the given rowids, and the value cur.lastrowid then reports:
one more than the largest rowid in use (the table has no AUTOINCREMENT
column and the program never deletes rows). -/
def freshRowid (ids : List Nat) : Nat := ids.foldr max 0 + 1

/-- The exception FastAPI handlers raise; complete_task raises
HTTPException(status_code=404, detail="Task not found"). -/
structure HTTPException where
  status_code : Nat
  detail : String
  deriving DecidableEq, Repr

/-- Handler create_application (src/job-planner.py lines 105-119): INSERT
the six non-id fields, set application.id from cur.lastrowid, commit,
close, return the application.  The stored row holds exactly the inserted
field values, so it equals the returned record. -/
def create_application (s : Store) (application : JobApplication) :
    JobApplication × Store :=
  let newRow := { application with id := some (freshRowid (appIds s)) }
  (newRow, { s with job_applications := s.job_applications ++ [newRow] })

/-- Handler get_applications (src/job-planner.py lines 121-140): SELECT *
FROM job_applications and rebuild each row field for field, in rowid
order, which is the order the table list keeps. -/
def get_applications (s : Store) : List JobApplication :=
  s.job_applications

/-- Handler create_task (src/job-planner.py lines 143-156): INSERT title,
due_date, completed and job_application_id as given, set task.id from
cur.lastrowid, commit, close, return the task.  The program never turns
on PRAGMA foreign_keys, so SQLite accepts any job_application_id value
without checking it against the job_applications table. -/
def create_task (s : Store) (task : Task) : Task × Store :=
  let newRow := { task with id := some (freshRowid (taskIds s)) }
  (newRow, { s with tasks := s.tasks ++ [newRow] })

/-- The row rewrite performed by UPDATE tasks SET completed = 1 WHERE
id = task_id: the matching row gets completed set, every other row is
kept as is. -/
def updateCompleted (tasks : List Task) (task_id : Nat) : List Task :=
  tasks.map (fun t => if t.id == some task_id then { t with completed := true } else t)

/-- Handler complete_task (src/job-planner.py lines 158-169): UPDATE tasks
SET completed = 1 WHERE id = task_id; if cur.rowcount = 0 raise the 404
HTTPException, otherwise commit, close and return the success message.

cur.rowcount counts the rows the WHERE clause matched.  When it is 0 the
UPDATE changed nothing and the raise happens before conn.commit(), so the
database is unchanged on that path; the raise also happens before
conn.close(), so the Bool component records false there (the connection
is never released) and true on the success path. -/
def complete_task (s : Store) (task_id : Nat) :
    Except HTTPException String × Store × Bool :=
  let rowcount := s.tasks.countP (fun t => t.id == some task_id)
  let updated := updateCompleted s.tasks task_id
  if rowcount = 0 then
    (Except.error { status_code := 404, detail := "Task not found" }, s, false)
  else
    (Except.ok "Task marked as completed", { s with tasks := updated }, true)

/-- Handler create_contact (src/job-planner.py lines 172-185). -/
def create_contact (s : Store) (contact : Contact) : Contact × Store :=
  let newRow := { contact with id := some (freshRowid (contactIds s)) }
  (newRow, { s with contacts := s.contacts ++ [newRow] })

/-- Handler create_document (src/job-planner.py lines 188-202). -/
def create_document (s : Store) (document : Document) : Document × Store :=
  let newRow := { document with id := some (freshRowid (documentIds s)) }
  (newRow, { s with documents := s.documents ++ [newRow] })

/-- The status column of every job_applications row, in rowid order. -/
def statusList (s : Store) : List String :=
  s.job_applications.map (fun a => a.status)

/-- Handler get_application_stats (src/job-planner.py lines 205-221):
SELECT status, COUNT(*) FROM job_applications GROUP BY status, collected
into a dict keyed by status.  Modelled as an association list with one
pair per distinct status value present in the table, mapping it to the
number of rows holding it. -/
def get_application_stats (s : Store) : List (String × Nat) :=
  (statusList s).dedup.map (fun st => (st, (statusList s).count st))

/-- One API operation, for reasoning about states reachable through the
service's handlers. -/
inductive Op where
  | createApp (a : JobApplication)
  | createTask (t : Task)
  | createContact (c : Contact)
  | createDocument (d : Document)
  | completeTask (task_id : Nat)
  | listApps
  | stats
  deriving Repr

/-- The database state after one handler call. -/
def stepOp (s : Store) (op : Op) : Store :=
  match op with
  | Op.createApp a => (create_application s a).2
  | Op.createTask t => (create_task s t).2
  | Op.createContact c => (create_contact s c).2
  | Op.createDocument d => (create_document s d).2
  | Op.completeTask i => (complete_task s i).2.1
  | Op.listApps => s
  | Op.stats => s

/-- The database state reached from a fresh init_db store by a sequence
of handler calls. -/
def run (ops : List Op) : Store := ops.foldl stepOp emptyStore

/-- Every row of every table carries an assigned (non-null) id. -/
def allAssigned (s : Store) : Prop :=
  (∀ a ∈ s.job_applications, a.id ≠ none) ∧
  (∀ t ∈ s.tasks, t.id ≠ none) ∧
  (∀ c ∈ s.contacts, c.id ≠ none) ∧
  (∀ d ∈ s.documents, d.id ≠ none)

/-- Store well-formedness: every row's id is assigned and ids are unique
within each table. -/
def WF (s : Store) : Prop :=
  allAssigned s ∧ (appIds s).Nodup ∧ (taskIds s).Nodup ∧
  (contactIds s).Nodup ∧ (documentIds s).Nodup

/-- Existing ids survive a step unchanged in place: each table's id list
after the step is the id list before it, possibly extended at the end. -/
def idsExtend (s s' : Store) : Prop :=
  (∃ e, appIds s' = appIds s ++ e) ∧
  (∃ e, taskIds s' = taskIds s ++ e) ∧
  (∃ e, contactIds s' = contactIds s ++ e) ∧
  (∃ e, documentIds s' = documentIds s ++ e)

/-! Helper lemmas. -/

lemma mem_le_foldr_max (ids : List Nat) : ∀ n ∈ ids, n ≤ ids.foldr max 0 := by
  induction ids with
  | nil => intro n hn; cases hn
  | cons m ms ih =>
    intro n hn
    rcases List.mem_cons.mp hn with h | h
    · subst h; exact le_max_left _ _
    · exact le_trans (ih n h) (le_max_right _ _)

lemma freshRowid_not_mem (ids : List Nat) : freshRowid ids ∉ ids := by
  intro hmem
  have h := mem_le_foldr_max ids _ hmem
  simp only [freshRowid] at h
  omega

lemma freshRowid_ne (ids : List Nat) (n : Nat) (hn : n ∈ ids) :
    n ≠ freshRowid ids := by
  intro h
  exact freshRowid_not_mem ids (h ▸ hn)

lemma update_preserves_id (i : Nat) (t : Task) :
    (if t.id == some i then { t with completed := true } else t).id = t.id := by
  split <;> rfl

lemma taskIds_map_update (tasks : List Task) (i : Nat) :
    (updateCompleted tasks i).filterMap (fun t => t.id) =
      tasks.filterMap (fun t => t.id) := by
  rw [updateCompleted, List.filterMap_map]
  apply List.filterMap_congr
  intro t _
  simp only [Function.comp]
  exact update_preserves_id i t

lemma countP_matching_le_one (tasks : List Task) (i : Nat)
    (h : (tasks.filterMap (fun t => t.id)).Nodup) :
    tasks.countP (fun t => t.id == some i) ≤ 1 := by
  induction tasks with
  | nil => simp
  | cons t ts ih =>
    cases ht : t.id with
    | none =>
      have hfm : (t :: ts).filterMap (fun t => t.id) =
          ts.filterMap (fun t => t.id) := by
        simp [List.filterMap_cons, ht]
      rw [hfm] at h
      have hpt : (t.id == some i) = false := by simp [ht]
      rw [List.countP_cons, hpt]
      simpa using ih h
    | some k =>
      have hfm : (t :: ts).filterMap (fun t => t.id) =
          k :: ts.filterMap (fun t => t.id) := by
        simp [List.filterMap_cons, ht]
      rw [hfm] at h
      rcases List.nodup_cons.mp h with ⟨hk, hnd⟩
      by_cases hki : k = i
      · subst hki
        have hzero : ts.countP (fun t => t.id == some k) = 0 := by
          rw [List.countP_eq_zero]
          intro u hu
          simp only [beq_iff_eq]
          intro huid
          exact hk (List.mem_filterMap.mpr ⟨u, hu, huid⟩)
        have hpt : (t.id == some k) = true := by simp [ht]
        rw [List.countP_cons, hpt, hzero]
        simp
      · have hpt : (t.id == some i) = false := by simp [ht, hki]
        rw [List.countP_cons, hpt]
        simpa using ih hnd

lemma countP_matching_pos (tasks : List Task) (i : Nat)
    (h : ∃ t ∈ tasks, t.id = some i) :
    0 < tasks.countP (fun t => t.id == some i) := by
  rcases h with ⟨t, ht, hid⟩
  apply List.countP_pos_iff.mpr
  exact ⟨t, ht, by simp [hid]⟩

lemma complete_task_success (s : Store) (i : Nat)
    (h : ∃ t ∈ s.tasks, t.id = some i) :
    complete_task s i =
      (Except.ok "Task marked as completed",
       { s with tasks := updateCompleted s.tasks i }, true) := by
  have hpos := countP_matching_pos s.tasks i h
  have hne : s.tasks.countP (fun t => t.id == some i) ≠ 0 := by omega
  simp [complete_task, hne]

lemma complete_task_notfound (s : Store) (i : Nat)
    (h : ∀ t ∈ s.tasks, t.id ≠ some i) :
    complete_task s i =
      (Except.error { status_code := 404, detail := "Task not found" }, s, false) := by
  have hz : s.tasks.countP (fun t => t.id == some i) = 0 := by
    rw [List.countP_eq_zero]
    intro t ht
    simpa using h t ht
  simp [complete_task, hz]

lemma mem_update_completed (tasks : List Task) (i : Nat) :
    ∀ t ∈ updateCompleted tasks i, t.id = some i → t.completed = true := by
  intro t ht hid
  rw [updateCompleted] at ht
  rcases List.mem_map.mp ht with ⟨t0, _, heq⟩
  by_cases hc : (t0.id == some i) = true
  · rw [if_pos hc] at heq
    rw [heq.symm]
  · rw [if_neg hc] at heq
    subst heq
    simp [hid] at hc

lemma update_keeps_matching (tasks : List Task) (i : Nat)
    (h : ∃ t ∈ tasks, t.id = some i) :
    ∃ t ∈ updateCompleted tasks i, t.id = some i := by
  rcases h with ⟨t, ht, hid⟩
  rw [updateCompleted]
  refine ⟨_, List.mem_map.mpr ⟨t, ht, rfl⟩, ?_⟩
  rw [update_preserves_id, hid]

lemma appIds_create (s : Store) (a : JobApplication) :
    appIds (create_application s a).2 = appIds s ++ [freshRowid (appIds s)] := by
  simp [appIds, create_application, List.filterMap_append]

lemma taskIds_create (s : Store) (t : Task) :
    taskIds (create_task s t).2 = taskIds s ++ [freshRowid (taskIds s)] := by
  simp [taskIds, create_task, List.filterMap_append]

lemma contactIds_create (s : Store) (c : Contact) :
    contactIds (create_contact s c).2 = contactIds s ++ [freshRowid (contactIds s)] := by
  simp [contactIds, create_contact, List.filterMap_append]

lemma documentIds_create (s : Store) (d : Document) :
    documentIds (create_document s d).2 = documentIds s ++ [freshRowid (documentIds s)] := by
  simp [documentIds, create_document, List.filterMap_append]

lemma nodup_append_fresh (ids : List Nat) (h : ids.Nodup) :
    (ids ++ [freshRowid ids]).Nodup := by
  rw [List.nodup_append]
  refine ⟨h, List.nodup_singleton _, ?_⟩
  intro x hx hx1
  rw [List.mem_singleton] at hx1
  exact freshRowid_ne ids x hx hx1

lemma taskIds_complete (s : Store) (i : Nat) :
    taskIds (complete_task s i).2.1 = taskIds s := by
  by_cases hz : s.tasks.countP (fun t => t.id == some i) = 0
  · simp [complete_task, hz]
  · simp only [complete_task, if_neg hz]
    exact taskIds_map_update s.tasks i

lemma complete_preserves_other_tables (s : Store) (i : Nat) :
    (complete_task s i).2.1.job_applications = s.job_applications ∧
    (complete_task s i).2.1.contacts = s.contacts ∧
    (complete_task s i).2.1.documents = s.documents := by
  by_cases hz : s.tasks.countP (fun t => t.id == some i) = 0 <;>
    simp [complete_task, hz]

/-! Concrete sample data for witnesses. -/

/-- A concrete stored task row with assigned id 1. -/
def sampleTask : Task :=
  { id := some 1, title := "call recruiter", due_date := 7,
    completed := false, job_application_id := none }

/-- A concrete store holding exactly one task row (id 1). -/
def sampleStore : Store :=
  { job_applications := [], tasks := [sampleTask], contacts := [], documents := [] }

/-! Claim theorems. -/

/-- C1: the claim is refuted by the code.  When no Task row matches
task_id, complete_task raises the 404 HTTPException before reaching
conn.close(), so the NotFound exit path does not release the acquired
connection: at task_id 1 against a store with no task rows the handler
returns the NotFound error with the connection-released flag false. -/
theorem complete_task_notfound_leaks_connection :
    (complete_task emptyStore 1).1 =
      Except.error { status_code := 404, detail := "Task not found" } ∧
    (complete_task emptyStore 1).2.2 = false := by
  constructor <;> rfl

/-- C2: for every integer task_id (over a store whose task ids are
unique), complete_task succeeds exactly when one row with that id was
matched by the UPDATE, fails with the 404 NotFound error exactly when
zero rows matched, and in the NotFound case leaves the store unchanged. -/
theorem complete_task_result_spec (s : Store) (task_id : Nat)
    (hnd : (taskIds s).Nodup) :
    ((∃ m, (complete_task s task_id).1 = Except.ok m) ↔
       s.tasks.countP (fun t => t.id == some task_id) = 1) ∧
    ((complete_task s task_id).1 =
       Except.error { status_code := 404, detail := "Task not found" } ↔
       s.tasks.countP (fun t => t.id == some task_id) = 0) ∧
    (s.tasks.countP (fun t => t.id == some task_id) = 0 →
       (complete_task s task_id).2.1 = s) := by
  have hle : s.tasks.countP (fun t => t.id == some task_id) ≤ 1 :=
    countP_matching_le_one s.tasks task_id hnd
  by_cases hc : s.tasks.countP (fun t => t.id == some task_id) = 0
  · refine ⟨?_, ?_, ?_⟩ <;> simp [complete_task, hc]
  · have h1 : s.tasks.countP (fun t => t.id == some task_id) = 1 := by omega
    refine ⟨?_, ?_, ?_⟩ <;> simp [complete_task, hc, h1]

/-- Witness for C2 at the one-task store and task_id 1. -/
theorem complete_task_result_spec_witness :
    (taskIds sampleStore).Nodup ∧
    (((∃ m, (complete_task sampleStore 1).1 = Except.ok m) ↔
        sampleStore.tasks.countP (fun t => t.id == some 1) = 1) ∧
     ((complete_task sampleStore 1).1 =
        Except.error { status_code := 404, detail := "Task not found" } ↔
        sampleStore.tasks.countP (fun t => t.id == some 1) = 0) ∧
     (sampleStore.tasks.countP (fun t => t.id == some 1) = 0 →
        (complete_task sampleStore 1).2.1 = sampleStore)) :=
  ⟨by decide, complete_task_result_spec sampleStore 1 (by decide)⟩

/-- C5: marking an existing Task complete twice is idempotent: both calls
succeed and after either call every task row carrying that id has
completed = true. -/
theorem complete_task_idempotent (s : Store) (task_id : Nat)
    (h : ∃ t ∈ s.tasks, t.id = some task_id) :
    (∃ m, (complete_task s task_id).1 = Except.ok m) ∧
    (∃ m, (complete_task (complete_task s task_id).2.1 task_id).1 = Except.ok m) ∧
    (∀ t ∈ (complete_task s task_id).2.1.tasks,
       t.id = some task_id → t.completed = true) ∧
    (∀ t ∈ (complete_task (complete_task s task_id).2.1 task_id).2.1.tasks,
       t.id = some task_id → t.completed = true) := by
  have h1 := complete_task_success s task_id h
  have hs1 : (complete_task s task_id).2.1.tasks = updateCompleted s.tasks task_id := by
    rw [h1]
  have h2mem : ∃ t ∈ (complete_task s task_id).2.1.tasks, t.id = some task_id := by
    rw [hs1]
    exact update_keeps_matching s.tasks task_id h
  have h2 := complete_task_success _ task_id h2mem
  have hs2 : (complete_task (complete_task s task_id).2.1 task_id).2.1.tasks =
      updateCompleted (complete_task s task_id).2.1.tasks task_id := by
    rw [h2]
  refine ⟨⟨_, by rw [h1]⟩, ⟨_, by rw [h2]⟩, ?_, ?_⟩
  · rw [hs1]
    exact mem_update_completed s.tasks task_id
  · rw [hs2]
    exact mem_update_completed _ task_id

/-- Witness for C5 at the one-task store and task_id 1. -/
theorem complete_task_idempotent_witness :
    (∃ t ∈ sampleStore.tasks, t.id = some 1) ∧
    ((∃ m, (complete_task sampleStore 1).1 = Except.ok m) ∧
     (∃ m, (complete_task (complete_task sampleStore 1).2.1 1).1 = Except.ok m) ∧
     (∀ t ∈ (complete_task sampleStore 1).2.1.tasks,
        t.id = some 1 → t.completed = true) ∧
     (∀ t ∈ (complete_task (complete_task sampleStore 1).2.1 1).2.1.tasks,
        t.id = some 1 → t.completed = true)) :=
  ⟨⟨sampleTask, by simp [sampleStore], rfl⟩,
   complete_task_idempotent sampleStore 1 ⟨sampleTask, by simp [sampleStore], rfl⟩⟩

/-- C6: for an existing Task identity, complete_task touches only the
completed field of rows carrying that id: the other three tables are
unchanged, the tasks table keeps its length, and position by position
every field except completed is unchanged, completed becomes true on the
matching row and the whole row is unchanged on every other row. -/
theorem complete_task_frame (s : Store) (task_id : Nat)
    (h : ∃ t ∈ s.tasks, t.id = some task_id) :
    (complete_task s task_id).2.1.job_applications = s.job_applications ∧
    (complete_task s task_id).2.1.contacts = s.contacts ∧
    (complete_task s task_id).2.1.documents = s.documents ∧
    (complete_task s task_id).2.1.tasks.length = s.tasks.length ∧
    (∀ j, ∀ hj : j < s.tasks.length,
      ∀ hj2 : j < (complete_task s task_id).2.1.tasks.length,
      ((complete_task s task_id).2.1.tasks[j].title = s.tasks[j].title ∧
       (complete_task s task_id).2.1.tasks[j].due_date = s.tasks[j].due_date ∧
       (complete_task s task_id).2.1.tasks[j].job_application_id =
         s.tasks[j].job_application_id ∧
       (complete_task s task_id).2.1.tasks[j].id = s.tasks[j].id ∧
       (s.tasks[j].id = some task_id →
         (complete_task s task_id).2.1.tasks[j].completed = true) ∧
       (s.tasks[j].id ≠ some task_id →
         (complete_task s task_id).2.1.tasks[j] = s.tasks[j]))) := by
  rw [complete_task_success s task_id h]
  dsimp only
  refine ⟨rfl, rfl, rfl, by simp [updateCompleted], ?_⟩
  intro j hj hj2
  simp only [updateCompleted, List.getElem_map]
  by_cases hc : (s.tasks[j].id == some task_id) = true
  · rw [if_pos hc]
    refine ⟨rfl, rfl, rfl, rfl, fun _ => rfl, ?_⟩
    intro hne
    exact absurd (by simpa using hc) hne
  · rw [if_neg hc]
    refine ⟨rfl, rfl, rfl, rfl, ?_, fun _ => rfl⟩
    intro heq
    exact absurd (by simp [heq]) hc

/-- Witness for C6 at the one-task store and task_id 1. -/
theorem complete_task_frame_witness :
    (∃ t ∈ sampleStore.tasks, t.id = some 1) ∧
    ((complete_task sampleStore 1).2.1.job_applications =
       sampleStore.job_applications ∧
     (complete_task sampleStore 1).2.1.contacts = sampleStore.contacts ∧
     (complete_task sampleStore 1).2.1.documents = sampleStore.documents ∧
     (complete_task sampleStore 1).2.1.tasks.length = sampleStore.tasks.length ∧
     (∀ j, ∀ hj : j < sampleStore.tasks.length,
       ∀ hj2 : j < (complete_task sampleStore 1).2.1.tasks.length,
       ((complete_task sampleStore 1).2.1.tasks[j].title =
          sampleStore.tasks[j].title ∧
        (complete_task sampleStore 1).2.1.tasks[j].due_date =
          sampleStore.tasks[j].due_date ∧
        (complete_task sampleStore 1).2.1.tasks[j].job_application_id =
          sampleStore.tasks[j].job_application_id ∧
        (complete_task sampleStore 1).2.1.tasks[j].id = sampleStore.tasks[j].id ∧
        (sampleStore.tasks[j].id = some 1 →
          (complete_task sampleStore 1).2.1.tasks[j].completed = true) ∧
        (sampleStore.tasks[j].id ≠ some 1 →
          (complete_task sampleStore 1).2.1.tasks[j] = sampleStore.tasks[j])))) :=
  ⟨⟨sampleTask, by simp [sampleStore], rfl⟩,
   complete_task_frame sampleStore 1 ⟨sampleTask, by simp [sampleStore], rfl⟩⟩

/-- C3: create_application followed by get_applications yields a list
containing the returned record, whose six data fields equal the input
fields and whose id is assigned (some value) and distinct from the id of
every row already stored. -/
theorem create_then_list_spec (s : Store) (application : JobApplication) :
    ((create_application s application).1 ∈
       get_applications (create_application s application).2) ∧
    (create_application s application).1.company = application.company ∧
    (create_application s application).1.position = application.position ∧
    (create_application s application).1.status = application.status ∧
    (create_application s application).1.date_applied = application.date_applied ∧
    (create_application s application).1.url = application.url ∧
    (create_application s application).1.notes = application.notes ∧
    (∃ k, (create_application s application).1.id = some k ∧
       ∀ b ∈ s.job_applications, b.id ≠ some k) := by
  refine ⟨?_, rfl, rfl, rfl, rfl, rfl, rfl, ?_⟩
  · simp [create_application, get_applications]
  · refine ⟨freshRowid (appIds s), rfl, ?_⟩
    intro b hb hbid
    exact freshRowid_not_mem (appIds s) (List.mem_filterMap.mpr ⟨b, hb, hbid⟩)

/-- C7: create_task accepts a task whose job_application_id matches no
stored JobApplication id: the row is inserted as given with a freshly
assigned id (SQLite never checks the reference because the program never
enables foreign-key enforcement). -/
theorem create_task_unenforced_reference (s : Store) (task : Task) (j : Nat)
    (href : task.job_application_id = some j)
    (hdangling : ∀ a ∈ s.job_applications, a.id ≠ some j) :
    (create_task s task).2.tasks = s.tasks ++ [(create_task s task).1] ∧
    (create_task s task).1.title = task.title ∧
    (create_task s task).1.due_date = task.due_date ∧
    (create_task s task).1.completed = task.completed ∧
    (create_task s task).1.job_application_id = some j ∧
    (∃ k, (create_task s task).1.id = some k ∧
       ∀ t ∈ s.tasks, t.id ≠ some k) := by
  refine ⟨rfl, rfl, rfl, rfl, href, ?_⟩
  refine ⟨freshRowid (taskIds s), rfl, ?_⟩
  intro t ht htid
  exact freshRowid_not_mem (taskIds s) (List.mem_filterMap.mpr ⟨t, ht, htid⟩)

/-- A concrete task input whose job_application_id (5) references no
stored JobApplication. -/
def danglingTask : Task :=
  { title := "send thank you note", due_date := 3,
    completed := false, job_application_id := some 5 }

/-- Witness for C7: inserting the dangling task into the empty store. -/
theorem create_task_unenforced_reference_witness :
    danglingTask.job_application_id = some 5 ∧
    (∀ a ∈ emptyStore.job_applications, a.id ≠ some 5) ∧
    ((create_task emptyStore danglingTask).2.tasks =
       emptyStore.tasks ++ [(create_task emptyStore danglingTask).1] ∧
     (create_task emptyStore danglingTask).1.title = danglingTask.title ∧
     (create_task emptyStore danglingTask).1.due_date = danglingTask.due_date ∧
     (create_task emptyStore danglingTask).1.completed = danglingTask.completed ∧
     (create_task emptyStore danglingTask).1.job_application_id = some 5 ∧
     (∃ k, (create_task emptyStore danglingTask).1.id = some k ∧
        ∀ t ∈ emptyStore.tasks, t.id ≠ some k)) :=
  ⟨rfl, by simp [emptyStore],
   create_task_unenforced_reference emptyStore danglingTask 5 rfl
     (by simp [emptyStore])⟩

/-- C10: create_task stores the request's completed value verbatim: a
task submitted with completed = true is inserted and returned with
completed = true, so a task can enter the store already completed.
(When the field is omitted from the request body the pydantic model
defaults it to false, mirrored by the Task structure's default.) -/
theorem create_task_stores_completed_verbatim (s : Store) (task : Task)
    (h : task.completed = true) :
    (create_task s task).1.completed = true ∧
    (create_task s task).2.tasks = s.tasks ++ [(create_task s task).1] ∧
    ∀ t ∈ (create_task s task).2.tasks, t ∈ s.tasks ∨ t.completed = true := by
  refine ⟨h, rfl, ?_⟩
  intro t ht
  rcases List.mem_append.mp ht with ht | ht
  · exact Or.inl ht
  · rw [List.mem_singleton] at ht
    subst ht
    exact Or.inr h

/-- A concrete task input submitted already completed. -/
def preCompletedTask : Task :=
  { title := "archive posting", due_date := 2,
    completed := true, job_application_id := none }

/-- Witness for C10: inserting an already-completed task into the empty
store. -/
theorem create_task_stores_completed_verbatim_witness :
    preCompletedTask.completed = true ∧
    ((create_task emptyStore preCompletedTask).1.completed = true ∧
     (create_task emptyStore preCompletedTask).2.tasks =
       emptyStore.tasks ++ [(create_task emptyStore preCompletedTask).1] ∧
     ∀ t ∈ (create_task emptyStore preCompletedTask).2.tasks,
       t ∈ emptyStore.tasks ∨ t.completed = true) :=
  ⟨rfl, create_task_stores_completed_verbatim emptyStore preCompletedTask rfl⟩

lemma count_statusList (s : Store) (st : String) :
    (statusList s).count st =
      s.job_applications.countP (fun a => a.status == st) := by
  rw [statusList, List.count, List.countP_map]
  rfl

/-- C4: the association list returned by get_application_stats contains
the pair (st, n) exactly when some stored JobApplication row has status
st and n is the number of rows with that status; no status absent from
the data appears (every listed count is nonzero). -/
theorem get_application_stats_spec (s : Store) :
    (∀ st n, (st, n) ∈ get_application_stats s ↔
       ((∃ a ∈ s.job_applications, a.status = st) ∧
        n = s.job_applications.countP (fun a => a.status == st))) ∧
    (∀ st n, (st, n) ∈ get_application_stats s → n ≠ 0) := by
  have hchar : ∀ st n, (st, n) ∈ get_application_stats s ↔
      ((∃ a ∈ s.job_applications, a.status = st) ∧
       n = s.job_applications.countP (fun a => a.status == st)) := by
    intro st n
    constructor
    · intro hmem
      rcases List.mem_map.mp hmem with ⟨x, hx, hxeq⟩
      have hx1 : x = st := congrArg Prod.fst hxeq
      have hx2 : (statusList s).count x = n := congrArg Prod.snd hxeq
      rw [hx1] at hx hx2
      have hxs : st ∈ statusList s := List.mem_dedup.mp hx
      rcases List.mem_map.mp hxs with ⟨a, ha, hast⟩
      refine ⟨⟨a, ha, hast⟩, ?_⟩
      rw [← hx2, count_statusList]
    · rintro ⟨⟨a, ha, hast⟩, hn⟩
      subst hn
      apply List.mem_map.mpr
      refine ⟨st, List.mem_dedup.mpr (List.mem_map.mpr ⟨a, ha, hast⟩), ?_⟩
      rw [count_statusList]
  refine ⟨hchar, ?_⟩
  intro st n hmem
  rcases (hchar st n).mp hmem with ⟨⟨a, ha, hast⟩, hn⟩
  have hpos : 0 < s.job_applications.countP (fun a => a.status == st) :=
    List.countP_pos_iff.mpr ⟨a, ha, by simp [hast]⟩
  omega

/-- C9: the counts returned by get_application_stats sum to the number
of JobApplication rows in the store: the GROUP BY partitions the table. -/
theorem get_application_stats_total (s : Store) :
    ((get_application_stats s).map Prod.snd).sum = s.job_applications.length := by
  have h := List.sum_map_count_dedup_eq_length (statusList s)
  have hlen : (statusList s).length = s.job_applications.length := by
    simp [statusList]
  rw [get_application_stats, List.map_map]
  have hfun : (Prod.snd ∘ fun st => (st, (statusList s).count st)) =
      fun st => (statusList s).count st := rfl
  rw [hfun, h, hlen]

lemma appIds_complete (s : Store) (i : Nat) :
    appIds (complete_task s i).2.1 = appIds s := by
  rw [appIds, (complete_preserves_other_tables s i).1]
  rfl

lemma contactIds_complete (s : Store) (i : Nat) :
    contactIds (complete_task s i).2.1 = contactIds s := by
  rw [contactIds, (complete_preserves_other_tables s i).2.1]
  rfl

lemma documentIds_complete (s : Store) (i : Nat) :
    documentIds (complete_task s i).2.1 = documentIds s := by
  rw [documentIds, (complete_preserves_other_tables s i).2.2]
  rfl

lemma WF_empty : WF emptyStore := by
  refine ⟨⟨?_, ?_, ?_, ?_⟩, ?_, ?_, ?_, ?_⟩ <;>
    simp [emptyStore, appIds, taskIds, contactIds, documentIds]

lemma allAssigned_update (tasks : List Task) (i : Nat)
    (h : ∀ t ∈ tasks, t.id ≠ none) :
    ∀ t ∈ updateCompleted tasks i, t.id ≠ none := by
  intro t ht
  rw [updateCompleted] at ht
  rcases List.mem_map.mp ht with ⟨t0, ht0, heq⟩
  rw [← heq, update_preserves_id]
  exact h t0 ht0

lemma complete_tasks_cases (s : Store) (i : Nat) :
    (complete_task s i).2.1.tasks = s.tasks ∨
    (complete_task s i).2.1.tasks = updateCompleted s.tasks i := by
  by_cases hz : s.tasks.countP (fun t => t.id == some i) = 0
  · left
    simp [complete_task, hz]
  · right
    simp [complete_task, hz]

lemma append_fresh_assigned {α : Type} (rows : List α) (row : α)
    (getId : α → Option Nat) (k : Nat)
    (h : ∀ x ∈ rows, getId x ≠ none) (hrow : getId row = some k) :
    ∀ x ∈ rows ++ [row], getId x ≠ none := by
  intro x hx
  rcases List.mem_append.mp hx with hx | hx
  · exact h x hx
  · rw [List.mem_singleton] at hx
    rw [hx, hrow]
    simp

lemma WF_step (s : Store) (op : Op) (h : WF s) : WF (stepOp s op) := by
  obtain ⟨⟨ha, ht, hc, hd⟩, hna, hnt, hnc, hnd⟩ := h
  cases op with
  | createApp a =>
    refine ⟨⟨?_, ht, hc, hd⟩, ?_, hnt, hnc, hnd⟩
    · exact append_fresh_assigned s.job_applications _ (fun x => x.id) _ ha rfl
    · rw [show appIds (stepOp s (Op.createApp a)) =
          appIds s ++ [freshRowid (appIds s)] from appIds_create s a]
      exact nodup_append_fresh _ hna
  | createTask t =>
    refine ⟨⟨ha, ?_, hc, hd⟩, hna, ?_, hnc, hnd⟩
    · exact append_fresh_assigned s.tasks _ (fun x => x.id) _ ht rfl
    · rw [show taskIds (stepOp s (Op.createTask t)) =
          taskIds s ++ [freshRowid (taskIds s)] from taskIds_create s t]
      exact nodup_append_fresh _ hnt
  | createContact c =>
    refine ⟨⟨ha, ht, ?_, hd⟩, hna, hnt, ?_, hnd⟩
    · exact append_fresh_assigned s.contacts _ (fun x => x.id) _ hc rfl
    · rw [show contactIds (stepOp s (Op.createContact c)) =
          contactIds s ++ [freshRowid (contactIds s)] from contactIds_create s c]
      exact nodup_append_fresh _ hnc
  | createDocument d =>
    refine ⟨⟨ha, ht, hc, ?_⟩, hna, hnt, hnc, ?_⟩
    · exact append_fresh_assigned s.documents _ (fun x => x.id) _ hd rfl
    · rw [show documentIds (stepOp s (Op.createDocument d)) =
          documentIds s ++ [freshRowid (documentIds s)] from documentIds_create s d]
      exact nodup_append_fresh _ hnd
  | completeTask i =>
    obtain ⟨hfa, hfc, hfd⟩ := complete_preserves_other_tables s i
    refine ⟨⟨?_, ?_, ?_, ?_⟩, ?_, ?_, ?_, ?_⟩
    · rw [show (stepOp s (Op.completeTask i)).job_applications =
          s.job_applications from hfa]
      exact ha
    · rcases complete_tasks_cases s i with hcase | hcase <;>
        rw [show (stepOp s (Op.completeTask i)).tasks =
            (complete_task s i).2.1.tasks from rfl, hcase]
      · exact ht
      · exact allAssigned_update s.tasks i ht
    · rw [show (stepOp s (Op.completeTask i)).contacts = s.contacts from hfc]
      exact hc
    · rw [show (stepOp s (Op.completeTask i)).documents = s.documents from hfd]
      exact hd
    · rw [show appIds (stepOp s (Op.completeTask i)) = appIds s from
        appIds_complete s i]
      exact hna
    · rw [show taskIds (stepOp s (Op.completeTask i)) = taskIds s from
        taskIds_complete s i]
      exact hnt
    · rw [show contactIds (stepOp s (Op.completeTask i)) = contactIds s from
        contactIds_complete s i]
      exact hnc
    · rw [show documentIds (stepOp s (Op.completeTask i)) = documentIds s from
        documentIds_complete s i]
      exact hnd
  | listApps => exact ⟨⟨ha, ht, hc, hd⟩, hna, hnt, hnc, hnd⟩
  | stats => exact ⟨⟨ha, ht, hc, hd⟩, hna, hnt, hnc, hnd⟩

lemma idsExtend_step (s : Store) (op : Op) : idsExtend s (stepOp s op) := by
  cases op with
  | createApp a =>
    refine ⟨⟨[freshRowid (appIds s)], appIds_create s a⟩,
            ⟨[], ?_⟩, ⟨[], ?_⟩, ⟨[], ?_⟩⟩ <;>
      simp [stepOp, create_application, taskIds, contactIds, documentIds]
  | createTask t =>
    refine ⟨⟨[], ?_⟩, ⟨[freshRowid (taskIds s)], taskIds_create s t⟩,
            ⟨[], ?_⟩, ⟨[], ?_⟩⟩ <;>
      simp [stepOp, create_task, appIds, contactIds, documentIds]
  | createContact c =>
    refine ⟨⟨[], ?_⟩, ⟨[], ?_⟩,
            ⟨[freshRowid (contactIds s)], contactIds_create s c⟩, ⟨[], ?_⟩⟩ <;>
      simp [stepOp, create_contact, appIds, taskIds, documentIds]
  | createDocument d =>
    refine ⟨⟨[], ?_⟩, ⟨[], ?_⟩, ⟨[], ?_⟩,
            ⟨[freshRowid (documentIds s)], documentIds_create s d⟩⟩ <;>
      simp [stepOp, create_document, appIds, taskIds, contactIds]
  | completeTask i =>
    refine ⟨⟨[], ?_⟩, ⟨[], ?_⟩, ⟨[], ?_⟩, ⟨[], ?_⟩⟩
    · rw [List.append_nil]
      exact appIds_complete s i
    · rw [List.append_nil]
      exact taskIds_complete s i
    · rw [List.append_nil]
      exact contactIds_complete s i
    · rw [List.append_nil]
      exact documentIds_complete s i
  | listApps =>
    refine ⟨⟨[], ?_⟩, ⟨[], ?_⟩, ⟨[], ?_⟩, ⟨[], ?_⟩⟩ <;> simp [stepOp]
  | stats =>
    refine ⟨⟨[], ?_⟩, ⟨[], ?_⟩, ⟨[], ?_⟩, ⟨[], ?_⟩⟩ <;> simp [stepOp]

/-- C8: every state reachable from a fresh store through the service's
handlers is well formed: every row's id is assigned (non-null) and ids
are unique within each table; moreover one further handler call only
ever extends each table's id list at the end, so existing ids are never
changed. -/
theorem reachable_states_wf (ops : List Op) :
    WF (run ops) ∧ ∀ op, idsExtend (run ops) (stepOp (run ops) op) := by
  constructor
  · have main : ∀ l : List Op, ∀ s, WF s → WF (l.foldl stepOp s) := by
      intro l
      induction l with
      | nil => intro s h; exact h
      | cons op l ih =>
        intro s h
        exact ih _ (WF_step s op h)
    exact main ops emptyStore WF_empty
  · intro op
    exact idsExtend_step (run ops) op

end JobPlanner
